import Mathlib

/-!
Verification development for the project-submission backend (`src/server.js`).

The service is a CRUD layer over a document store with two account partitions
(students, faculty) and one projects collection.  We embed the store as lists
of records and each HTTP handler as a pure function from the incoming request
data (plus the store-generated document id and the server timestamp, which the
real code obtains from the environment) to a response and an updated store.

Conventions of the embedding:
- A JavaScript string field that may be absent is a `String` where `""` plays
  the role of a falsy value (matching the source's `!x` checks), or an
  `Option String` where the source distinguishes `undefined` from a value.
- `bcrypt.hash` and `bcrypt.compare` are opaque to every property we prove, so
  they are taken as function parameters `bhash` / `bcompare`.
- Firestore `update()` on a nonexistent document rejects, which the handler's
  `catch` turns into a 500 response; the embedding reflects that branch.
-/

namespace ProjectApp

/-- An account document as written by the register handler
(`server.js` lines 83-90). -/
structure Account where
  id : String
  name : String
  email : String
  role : String
  password : String
  createdAt : Nat
deriving DecidableEq, Repr

/-- The fields of `req.file` that the submit handler reads
(`server.js` lines 286, 296-297). -/
structure FileInfo where
  filename : String
  mimetype : String
  originalname : String
deriving DecidableEq, Repr

/-- A project document.  `mark`, `reviewReason` and `reviewedAt` are absent on
a freshly submitted project (`server.js` lines 289-300) and are set by the
review handler (lines 326-331); `none` models both JS `null` and absence. -/
structure Project where
  id : String
  studentId : String
  title : String
  description : String
  reviewNo : Nat
  documentUrl : String
  fileType : String
  fileName : String
  status : String
  mark : Option Int
  reviewReason : Option String
  createdAt : Nat
  reviewedAt : Option Nat
deriving DecidableEq, Repr

/-- The document store: the `students` and `faculty` collections and the
`projects` collection (`server.js` lines 34-36, 277). -/
structure Store where
  students : List Account
  faculty : List Account
  projects : List Project
deriving DecidableEq, Repr

/-- The store before any operation has run. -/
def emptyStore : Store := ⟨[], [], []⟩

/-- An HTTP response reduced to the parts the spec talks about:
status code and `message` field. -/
structure Response where
  status : Nat
  message : String
deriving DecidableEq, Repr

/-- `['student', 'faculty'].includes(role)` (`server.js` lines 67, 110). -/
def validRole (role : String) : Bool :=
  role == "student" || role == "faculty"

/-- `role === 'student' ? studentCollection : facultyCollection`
(`server.js` lines 71, 114). -/
def roleAccounts (s : Store) (role : String) : List Account :=
  if role == "student" then s.students else s.faculty

/-- `collection.where("email", "==", email).get()` tested for emptiness
(`server.js` lines 74-75). -/
def emailExists (accts : List Account) (email : String) : Bool :=
  accts.any (fun a => a.email == email)

/-- `collection.where("email", "==", email).limit(1).get()` followed by
`snapshot.docs[0]` (`server.js` lines 117-122). -/
def findByEmail (accts : List Account) (email : String) : Option Account :=
  accts.find? (fun a => a.email == email)

/-- Result of the register handler: the response plus the store after it. -/
structure RegisterOut where
  resp : Response
  store : Store
deriving DecidableEq, Repr

/-- The `POST /register` handler (`server.js` lines 60-100).  `nid` is the
store-generated document id and `now` the server timestamp. -/
def register (bhash : String → String) (s : Store) (name : Option String)
    (email password role : String) (nid : String) (now : Nat) : RegisterOut :=
  if email == "" || password == "" || role == "" then
    ⟨⟨400, "Missing fields"⟩, s⟩
  else if !(validRole role) then
    ⟨⟨400, "Invalid role"⟩, s⟩
  else if emailExists (roleAccounts s role) email then
    ⟨⟨400, "Email already exists"⟩, s⟩
  else
    let acct : Account := ⟨nid, name.getD "", email, role, bhash password, now⟩
    if role == "student" then
      ⟨⟨201, "Registered successfully"⟩, { s with students := s.students ++ [acct] }⟩
    else
      ⟨⟨201, "Registered successfully"⟩, { s with faculty := s.faculty ++ [acct] }⟩

/-- The `POST /login` handler (`server.js` lines 103-136).  Read-only, so it
returns just the response. -/
def login (bcompare : String → String → Bool) (s : Store)
    (email password role : String) : Response :=
  if email == "" || password == "" || role == "" then
    ⟨400, "Missing fields"⟩
  else if !(validRole role) then
    ⟨400, "Invalid role"⟩
  else
    match findByEmail (roleAccounts s role) email with
    | none => ⟨400, "Invalid credentials"⟩
    | some a =>
      if bcompare password a.password then ⟨200, "Login successful"⟩
      else ⟨400, "Invalid credentials"⟩

/-- `studentCollection.doc(studentId).get()` tested for existence
(`server.js` lines 271-274). -/
def studentById (s : Store) (sid : String) : Option Account :=
  s.students.find? (fun a => a.id == sid)

/-- Size of `db.collection('projects').where("studentId", "==", studentId)`
(`server.js` lines 277-281). -/
def projCount (s : Store) (sid : String) : Nat :=
  (s.projects.filter (fun p => p.studentId == sid)).length

/-- Result of the submit handler: response, the `reviewNo` field of the JSON
body on success, and the store after it. -/
structure SubmitOut where
  resp : Response
  reviewNo : Option Nat
  store : Store
deriving DecidableEq, Repr

/-- The `POST /project/submit` handler (`server.js` lines 264-312). -/
def projectSubmit (s : Store) (title description studentId : String)
    (file : Option FileInfo) (nid : String) (now : Nat) : SubmitOut :=
  if studentId == "" then
    ⟨⟨400, "Missing studentId"⟩, none, s⟩
  else
    match file with
    | none => ⟨⟨400, "No file uploaded"⟩, none, s⟩
    | some f =>
      match studentById s studentId with
      | none => ⟨⟨404, "Student not found"⟩, none, s⟩
      | some _ =>
        let reviewNo := projCount s studentId + 1
        if reviewNo > 3 then
          ⟨⟨400, "Maximum 3 reviews allowed"⟩, none, s⟩
        else
          let proj : Project :=
            ⟨nid, studentId, title, description, reviewNo,
             "/public/" ++ f.filename, f.mimetype, f.originalname,
             "pending", none, none, now, none⟩
          ⟨⟨200, "Project submitted successfully as Review " ++ toString reviewNo⟩,
           some reviewNo, { s with projects := s.projects ++ [proj] }⟩

/-- `['approve', 'reject'].includes(status)` (`server.js` line 321). -/
def validStatus (status : String) : Bool :=
  status == "approve" || status == "reject"

/-- `mark || null` (`server.js` line 328): a falsy mark (absent, or the
number 0) is stored as null. -/
def jsMarkOrNull (mark : Option Int) : Option Int :=
  match mark with
  | none => none
  | some v => if v = 0 then none else some v

/-- `reason || ""` (`server.js` line 329): a falsy reason (absent, or the
empty string) is stored as the empty string. -/
def jsReasonOrEmpty (reason : Option String) : String :=
  match reason with
  | none => ""
  | some r => if r == "" then "" else r

/-- The field update performed by `projectRef.update({...})`
(`server.js` lines 326-331). -/
def applyDecision (p : Project) (status : String) (reason : Option String)
    (mark : Option Int) (now : Nat) : Project :=
  { p with
    status := status
    mark := jsMarkOrNull mark
    reviewReason := some (jsReasonOrEmpty reason)
    reviewedAt := some now }

/-- Whether the projects collection holds a document with this id. -/
def projectExists (s : Store) (pid : String) : Bool :=
  s.projects.any (fun p => p.id == pid)

/-- Result of the review handler: response and the store after it. -/
structure ReviewOut where
  resp : Response
  store : Store
deriving DecidableEq, Repr

/-- The `PUT /project/review/:projectId` handler (`server.js` lines 316-338).
Firestore `update()` on a nonexistent document rejects; the `catch` at line
334 then answers 500 with the generic message. -/
def projectReview (s : Store) (projectId status : String) (reason : Option String)
    (mark : Option Int) (now : Nat) : ReviewOut :=
  if !(validStatus status) then
    ⟨⟨400, "Invalid status"⟩, s⟩
  else if projectExists s projectId then
    ⟨⟨200, "Project " ++ status ++ " successfully"⟩,
     { s with projects := s.projects.map (fun p =>
         if p.id == projectId then applyDecision p status reason mark now else p) }⟩
  else
    ⟨⟨500, "Internal server error"⟩, s⟩

/-- Result of a read-only query: a payload or an error response. -/
inductive ApiResult (α : Type) where
  | ok : α → ApiResult α
  | err : Response → ApiResult α
deriving DecidableEq, Repr

/-- The `GET /projects` handler (`server.js` lines 341-351).  The
`snapshot.empty` early return also yields an empty list. -/
def getProjects (s : Store) : ApiResult (List Project) :=
  ApiResult.ok s.projects

/-- The `GET /projects/pending` handler (`server.js` lines 411-421). -/
def getPendingProjects (s : Store) : ApiResult (List Project) :=
  ApiResult.ok (s.projects.filter (fun p => p.status == "pending"))

/-- The `GET /projects/student/:studentId` handler (`server.js` lines 424-438). -/
def getProjectsByStudent (s : Store) (studentId : String) : ApiResult (List Project) :=
  if studentId == "" then ApiResult.err ⟨400, "Missing studentId"⟩
  else ApiResult.ok (s.projects.filter (fun p => p.studentId == studentId))

/-- The `GET /project/:projectId` handler (`server.js` lines 474-489). -/
def getProject (s : Store) (projectId : String) : ApiResult Project :=
  if projectId == "" then ApiResult.err ⟨400, "Missing projectId"⟩
  else
    match s.projects.find? (fun p => p.id == projectId) with
    | none => ApiResult.err ⟨404, "Project not found"⟩
    | some p => ApiResult.ok p

/-- One invocation of any endpoint of the service, with the environment-chosen
document id and timestamp recorded in the operation. -/
inductive Op where
  | register (name : Option String) (email password role nid : String) (now : Nat)
  | login (email password role : String)
  | submit (title description studentId : String) (file : Option FileInfo)
      (nid : String) (now : Nat)
  | review (projectId status : String) (reason : Option String)
      (mark : Option Int) (now : Nat)
  | listAll
  | listPending
  | listByStudent (studentId : String)
  | getOne (projectId : String)

/-- The store after one operation; read-only endpoints leave it unchanged. -/
def applyOp (bhash : String → String) (op : Op) (s : Store) : Store :=
  match op with
  | Op.register name email pw role nid now => (register bhash s name email pw role nid now).store
  | Op.login _ _ _ => s
  | Op.submit t d sid f nid now => (projectSubmit s t d sid f nid now).store
  | Op.review pid st r m now => (projectReview s pid st r m now).store
  | Op.listAll => s
  | Op.listPending => s
  | Op.listByStudent _ => s
  | Op.getOne _ => s

/-- The store after a finite sequence of operations run sequentially. -/
def runOps (bhash : String → String) (ops : List Op) (s : Store) : Store :=
  ops.foldl (fun st op => applyOp bhash op st) s

/-- At most 3 project records per studentId (spec section 3). -/
def capInvariant (s : Store) : Prop :=
  ∀ sid, projCount s sid ≤ 3

/-- One submit request's data: title, description, file, generated doc id,
timestamp. -/
structure SubmitReq where
  title : String
  description : String
  file : FileInfo
  nid : String
  now : Nat
deriving DecidableEq, Repr

/-- Outputs of a sequence of submit requests for one student, each run against
the store left by the previous one. -/
def submitOutputs : Store → String → List SubmitReq → List SubmitOut
  | _, _, [] => []
  | s, sid, q :: rest =>
    let out := projectSubmit s q.title q.description sid (some q.file) q.nid q.now
    out :: submitOutputs out.store sid rest

/-- A concrete account used to instantiate theorems. -/
def aliceAccount : Account := ⟨"s1", "Alice", "alice@u.edu", "student", "h1", 0⟩

/-- A concrete store with one student and no projects. -/
def storeOneStudent : Store := ⟨[aliceAccount], [], []⟩

/-- A concrete pending project for the student of `storeOneStudent`. -/
def demoProject : Project :=
  ⟨"p1", "s1", "T", "D", 1, "/public/f.pdf", "application/pdf", "f.pdf",
   "pending", none, none, 0, none⟩

/-- A concrete store with one student and one pending project. -/
def storeOneProject : Store := ⟨[aliceAccount], [], [demoProject]⟩

/-! ## Helper lemmas -/

lemma validRole_iff (role : String) :
    validRole role = true ↔ role = "student" ∨ role = "faculty" := by
  simp [validRole]

lemma validStatus_iff (st : String) :
    validStatus st = true ↔ st = "approve" ∨ st = "reject" := by
  simp [validStatus]

lemma capInvariant_empty : capInvariant emptyStore := by
  intro sid
  simp [projCount, emptyStore]

lemma projCount_append (s : Store) (p : Project) (sid : String) :
    projCount { s with projects := s.projects ++ [p] } sid
      = projCount s sid + (if p.studentId = sid then 1 else 0) := by
  simp only [projCount, List.filter_append]
  by_cases h : p.studentId = sid <;> simp [h]

lemma length_filter_map_studentId (l : List Project) (f : Project → Project)
    (hf : ∀ p, (f p).studentId = p.studentId) (sid : String) :
    ((l.map f).filter (fun p => p.studentId == sid)).length
      = (l.filter (fun p => p.studentId == sid)).length := by
  induction l with
  | nil => rfl
  | cons a l ih =>
    simp only [List.map_cons, List.filter_cons, hf a]
    by_cases h : a.studentId == sid <;> simp [h, ih]

lemma projCount_map (s : Store) (f : Project → Project)
    (hf : ∀ p, (f p).studentId = p.studentId) (sid : String) :
    projCount { s with projects := s.projects.map f } sid = projCount s sid := by
  simpa [projCount] using length_filter_map_studentId s.projects f hf sid

lemma any_id_map (l : List Project) (f : Project → Project)
    (hf : ∀ p, (f p).id = p.id) (pid : String) :
    (l.map f).any (fun p => p.id == pid) = l.any (fun p => p.id == pid) := by
  induction l with
  | nil => rfl
  | cons a l ih => simp [hf a, ih]

lemma applyDecision_studentId (p : Project) (st : String) (reason : Option String)
    (mark : Option Int) (now : Nat) :
    (applyDecision p st reason mark now).studentId = p.studentId := rfl

lemma applyDecision_id (p : Project) (st : String) (reason : Option String)
    (mark : Option Int) (now : Nat) :
    (applyDecision p st reason mark now).id = p.id := rfl

lemma projectSubmit_success (s : Store) (t d sid : String) (f : FileInfo)
    (nid : String) (now : Nat) (a : Account)
    (hsid : sid ≠ "") (ha : studentById s sid = some a)
    (hcap : projCount s sid + 1 ≤ 3) :
    projectSubmit s t d sid (some f) nid now =
      ⟨⟨200, "Project submitted successfully as Review " ++ toString (projCount s sid + 1)⟩,
       some (projCount s sid + 1),
       { s with projects := s.projects ++
          [⟨nid, sid, t, d, projCount s sid + 1, "/public/" ++ f.filename,
            f.mimetype, f.originalname, "pending", none, none, now, none⟩] }⟩ := by
  have h2 : ¬ (projCount s sid + 1 > 3) := by omega
  simp [projectSubmit, hsid, ha, h2]

lemma projectSubmit_reject (s : Store) (t d sid : String) (f : FileInfo)
    (nid : String) (now : Nat) (a : Account)
    (hsid : sid ≠ "") (ha : studentById s sid = some a)
    (hcap : projCount s sid + 1 > 3) :
    projectSubmit s t d sid (some f) nid now
      = ⟨⟨400, "Maximum 3 reviews allowed"⟩, none, s⟩ := by
  simp [projectSubmit, hsid, ha, hcap]

lemma projectSubmit_store_cases (s : Store) (t d sid : String)
    (file : Option FileInfo) (nid : String) (now : Nat) :
    (projectSubmit s t d sid file nid now).store = s ∨
    (projCount s sid + 1 ≤ 3 ∧ ∃ p : Project, p.studentId = sid ∧
      (projectSubmit s t d sid file nid now).store
        = { s with projects := s.projects ++ [p] }) := by
  unfold projectSubmit
  by_cases h0 : sid = ""
  · left; simp [h0]
  · simp only [h0]
    cases file with
    | none => left; simp [h0]
    | some f =>
      cases hs : studentById s sid with
      | none => left; simp [hs, h0]
      | some a =>
        by_cases hc : projCount s sid + 1 > 3
        · left; simp [hs, hc, h0]
        · right
          refine ⟨by omega, ⟨nid, sid, t, d, projCount s sid + 1,
            "/public/" ++ f.filename, f.mimetype, f.originalname,
            "pending", none, none, now, none⟩, rfl, ?_⟩
          simp [hs, hc, h0]

lemma register_store_projects (bhash : String → String) (s : Store)
    (name : Option String) (email pw role nid : String) (now : Nat) :
    (register bhash s name email pw role nid now).store.projects = s.projects := by
  unfold register
  by_cases h1 : email = ""
  · simp [h1]
  by_cases h2 : pw = ""
  · simp [h1, h2]
  by_cases h3 : role = ""
  · simp [h1, h2, h3]
  by_cases hv : validRole role
  · by_cases he : emailExists (roleAccounts s role) email
    · simp [h1, h2, h3, hv, he]
    · by_cases hr : role = "student"
      · subst hr; simp [h1, h2, h3, hv, he]
      · simp [h1, h2, h3, hv, he, hr]
  · simp [h1, h2, h3, hv]

lemma projectReview_success (s : Store) (pid st : String) (reason : Option String)
    (mark : Option Int) (now : Nat)
    (hst : validStatus st = true) (hex : projectExists s pid = true) :
    projectReview s pid st reason mark now =
      ⟨⟨200, "Project " ++ st ++ " successfully"⟩,
       { s with projects := s.projects.map (fun p =>
           if p.id == pid then applyDecision p st reason mark now else p) }⟩ := by
  simp [projectReview, hst, hex]

lemma projectReview_store_cases (s : Store) (pid st : String) (reason : Option String)
    (mark : Option Int) (now : Nat) :
    (projectReview s pid st reason mark now).store = s ∨
    (projectReview s pid st reason mark now).store
      = { s with projects := s.projects.map (fun p =>
            if p.id == pid then applyDecision p st reason mark now else p) } := by
  unfold projectReview
  by_cases hst : validStatus st
  · by_cases hex : projectExists s pid
    · right; simp [hst, hex]
    · left; simp [hst, hex]
  · left; simp [hst]

lemma register_success (bhash : String → String) (s : Store) (name : Option String)
    (email pw role nid : String) (now : Nat)
    (he : email ≠ "") (hp : pw ≠ "") (hrole : validRole role = true)
    (hfree : emailExists (roleAccounts s role) email = false) :
    register bhash s name email pw role nid now =
      ⟨⟨201, "Registered successfully"⟩,
       if role == "student" then
         { s with students := s.students ++ [⟨nid, name.getD "", email, role, bhash pw, now⟩] }
       else
         { s with faculty := s.faculty ++ [⟨nid, name.getD "", email, role, bhash pw, now⟩] }⟩ := by
  have hr0 : role ≠ "" := by
    rcases (validRole_iff role).mp hrole with h | h <;> subst h <;> decide
  by_cases hr : role = "student"
  · subst hr
    simp [register, validRole, he, hp, hfree]
  · simp [register, he, hp, hr0, hrole, hfree, hr]

lemma projectExists_review_store (s : Store) (pid st : String) (r : Option String)
    (m : Option Int) (t : Nat) :
    projectExists (projectReview s pid st r m t).store pid = projectExists s pid := by
  rcases projectReview_store_cases s pid st r m t with hc | hc <;> rw [hc]
  simp only [projectExists]
  exact any_id_map s.projects _
    (fun p => by by_cases hp : p.id == pid <;> simp [hp, applyDecision_id]) pid

lemma submit_step (s : Store) (t d sid : String) (f : FileInfo) (nid : String)
    (now : Nat) (a : Account) (hsid : sid ≠ "") (ha : studentById s sid = some a)
    (hcap : projCount s sid + 1 ≤ 3) :
    (projectSubmit s t d sid (some f) nid now).reviewNo = some (projCount s sid + 1) ∧
    (projectSubmit s t d sid (some f) nid now).resp.status = 200 ∧
    studentById (projectSubmit s t d sid (some f) nid now).store sid = some a ∧
    projCount (projectSubmit s t d sid (some f) nid now).store sid
      = projCount s sid + 1 := by
  rw [projectSubmit_success s t d sid f nid now a hsid ha hcap]
  refine ⟨rfl, rfl, ha, ?_⟩
  rw [projCount_append]
  simp

/-! ## Claim theorems -/

/-- C1: with a valid student and a file attached, the submit handler assigns
reviewNo equal to the number of existing project records for the student plus
one, and rejects with the capacity error exactly when that value exceeds 3; in
particular four consecutive submissions from a fresh student yield reviewNo
1, 2, 3 and then the capacity rejection. -/
theorem submit_reviewNo_sequence (s : Store) (sid : String) (a : Account)
    (hsid : sid ≠ "") (ha : studentById s sid = some a) :
    (∀ t d f nid now, projCount s sid + 1 ≤ 3 →
        (projectSubmit s t d sid (some f) nid now).reviewNo
            = some (projCount s sid + 1) ∧
        (projectSubmit s t d sid (some f) nid now).resp.status = 200) ∧
    (∀ t d f nid now, projCount s sid + 1 > 3 →
        (projectSubmit s t d sid (some f) nid now).resp
            = ⟨400, "Maximum 3 reviews allowed"⟩ ∧
        (projectSubmit s t d sid (some f) nid now).store = s) ∧
    (projCount s sid = 0 → ∀ q1 q2 q3 q4 : SubmitReq,
        (submitOutputs s sid [q1, q2, q3, q4]).map SubmitOut.reviewNo
          = [some 1, some 2, some 3, none] ∧
        ((submitOutputs s sid [q1, q2, q3, q4]).map (fun o => o.resp)).getLast?
          = some ⟨400, "Maximum 3 reviews allowed"⟩) := by
  refine ⟨?_, ?_, ?_⟩
  · intro t d f nid now hcap
    have h := submit_step s t d sid f nid now a hsid ha hcap
    exact ⟨h.1, h.2.1⟩
  · intro t d f nid now hcap
    rw [projectSubmit_reject s t d sid f nid now a hsid ha hcap]
    exact ⟨rfl, rfl⟩
  · intro h0 q1 q2 q3 q4
    obtain ⟨o1r, o1s, o1sb, o1pc⟩ :=
      submit_step s q1.title q1.description sid q1.file q1.nid q1.now a hsid ha
        (by omega)
    obtain ⟨o2r, o2s, o2sb, o2pc⟩ :=
      submit_step _ q2.title q2.description sid q2.file q2.nid q2.now a hsid o1sb
        (by omega)
    obtain ⟨o3r, o3s, o3sb, o3pc⟩ :=
      submit_step _ q3.title q3.description sid q3.file q3.nid q3.now a hsid o2sb
        (by omega)
    have o4 :=
      projectSubmit_reject _ q4.title q4.description sid q4.file q4.nid q4.now a
        hsid o3sb (by omega)
    simp only [submitOutputs, List.map_cons, List.map_nil, List.getLast?]
    rw [o1r, o2r, o3r, o4, o2pc, o1pc, h0]
    norm_num

/-- Witness for C1 at a concrete store: one student, no projects. -/
theorem submit_reviewNo_sequence_witness :
    (projectSubmit storeOneStudent "T" "D" "s1"
        (some ⟨"f.pdf", "application/pdf", "f.pdf"⟩) "p1" 3).reviewNo = some 1 ∧
    (submitOutputs storeOneStudent "s1"
        [⟨"T", "D", ⟨"f", "m", "o"⟩, "p1", 1⟩, ⟨"T", "D", ⟨"f", "m", "o"⟩, "p2", 2⟩,
         ⟨"T", "D", ⟨"f", "m", "o"⟩, "p3", 3⟩, ⟨"T", "D", ⟨"f", "m", "o"⟩, "p4", 4⟩]).map
        SubmitOut.reviewNo = [some 1, some 2, some 3, none] := by
  have h := submit_reviewNo_sequence storeOneStudent "s1" aliceAccount
    (by decide) (by rfl)
  exact ⟨(h.1 "T" "D" ⟨"f.pdf", "application/pdf", "f.pdf"⟩ "p1" 3 (by decide)).1,
    (h.2.2 (by rfl) _ _ _ _).1⟩

/-- C2: every operation of the service preserves the at-most-3-projects-per-
student invariant, and hence every state reachable from the empty store by a
finite sequence of sequential operations satisfies it. -/
theorem cap_invariant_reachable (bhash : String → String) :
    (∀ op s, capInvariant s → capInvariant (applyOp bhash op s)) ∧
    (∀ ops, capInvariant (runOps bhash ops emptyStore)) := by
  have hpres : ∀ op s, capInvariant s → capInvariant (applyOp bhash op s) := by
    intro op s h
    cases op with
    | register name email pw role nid now =>
      intro sid
      have hp := register_store_projects bhash s name email pw role nid now
      simpa [applyOp, projCount, hp] using h sid
    | login e p r => exact h
    | submit t d sid0 f nid now =>
      intro sid
      simp only [applyOp]
      rcases projectSubmit_store_cases s t d sid0 f nid now with hc | ⟨hcap, p, hps, hc⟩
      · rw [hc]; exact h sid
      · rw [hc, projCount_append]
        by_cases hsid : p.studentId = sid
        · have hse : sid0 = sid := by rw [← hps, hsid]
          subst hse
          simp only [hsid, if_pos]
          omega
        · simp only [hsid, if_neg, not_false_iff]
          simpa using h sid
    | review pid st r m now =>
      intro sid
      simp only [applyOp]
      rcases projectReview_store_cases s pid st r m now with hc | hc
      · rw [hc]; exact h sid
      · rw [hc, projCount_map]
        · exact h sid
        · intro p
          by_cases hp : p.id == pid <;> simp [hp, applyDecision_studentId]
    | listAll => exact h
    | listPending => exact h
    | listByStudent sid0 => exact h
    | getOne pid => exact h
  refine ⟨hpres, ?_⟩
  have key : ∀ ops s, capInvariant s → capInvariant (runOps bhash ops s) := by
    intro ops
    induction ops with
    | nil => intro s h; exact h
    | cons op rest ih => intro s h; exact ih _ (hpres op s h)
  intro ops
  exact key ops emptyStore capInvariant_empty

/-- Witness for C2 at a concrete operation and store. -/
theorem cap_invariant_reachable_witness :
    capInvariant (applyOp (fun x => x)
      (Op.submit "T" "D" "s1" (some ⟨"f", "m", "o"⟩) "p1" 0) emptyStore) :=
  (cap_invariant_reachable (fun x => x)).1 _ emptyStore capInvariant_empty

/-- C3: a successful review decision on an existing project keeps every
project record (same count), changes only the fields status, mark,
reviewReason and reviewedAt of the records with the reviewed id, sets those
to the request's values, and leaves every record with a different id
untouched. -/
theorem review_frame_effect (s : Store) (pid st : String) (reason : Option String)
    (mark : Option Int) (now : Nat)
    (hst : validStatus st = true) (hex : projectExists s pid = true) :
    (projectReview s pid st reason mark now).store.projects.length
        = s.projects.length ∧
    (∀ i (h1 : i < s.projects.length)
        (h2 : i < (projectReview s pid st reason mark now).store.projects.length),
      let p := s.projects.get ⟨i, h1⟩
      let q := (projectReview s pid st reason mark now).store.projects.get ⟨i, h2⟩
      q.id = p.id ∧ q.studentId = p.studentId ∧ q.title = p.title ∧
      q.description = p.description ∧ q.reviewNo = p.reviewNo ∧
      q.documentUrl = p.documentUrl ∧ q.fileType = p.fileType ∧
      q.fileName = p.fileName ∧ q.createdAt = p.createdAt ∧
      (p.id ≠ pid → q = p) ∧
      (p.id = pid → q.status = st ∧ q.mark = jsMarkOrNull mark ∧
        q.reviewReason = some (jsReasonOrEmpty reason) ∧ q.reviewedAt = some now)) ∧
    (projectReview s pid st reason mark now).resp.status = 200 := by
  rw [projectReview_success s pid st reason mark now hst hex]
  refine ⟨by simp, ?_, rfl⟩
  intro i h1 h2
  dsimp only
  simp only [List.get_eq_getElem, List.getElem_map]
  by_cases hid : (s.projects[i]).id = pid
  · rw [if_pos (by simp [hid])]
    refine ⟨rfl, rfl, rfl, rfl, rfl, rfl, rfl, rfl, rfl, ?_, ?_⟩
    · intro hne; exact absurd hid hne
    · intro _; exact ⟨rfl, rfl, rfl, rfl⟩
  · rw [if_neg (by simp [hid])]
    refine ⟨rfl, rfl, rfl, rfl, rfl, rfl, rfl, rfl, rfl, ?_, ?_⟩
    · intro _; rfl
    · intro hh; exact absurd hh hid

/-- Witness for C3: reviewing the one project of a concrete store with
status approve, mark 85 and empty reason. -/
theorem review_frame_effect_witness :
    (projectReview storeOneProject "p1" "approve" (some "") (some 85) 9).store.projects.length
        = storeOneProject.projects.length ∧
    (projectReview storeOneProject "p1" "approve" (some "") (some 85) 9).resp.status = 200 ∧
    ((projectReview storeOneProject "p1" "approve" (some "") (some 85) 9).store.projects.get
        ⟨0, by decide⟩).status = "approve" ∧
    ((projectReview storeOneProject "p1" "approve" (some "") (some 85) 9).store.projects.get
        ⟨0, by decide⟩).mark = jsMarkOrNull (some 85) ∧
    ((projectReview storeOneProject "p1" "approve" (some "") (some 85) 9).store.projects.get
        ⟨0, by decide⟩).reviewReason = some (jsReasonOrEmpty (some "")) := by
  have h := review_frame_effect storeOneProject "p1" "approve" (some "") (some 85) 9
      (by decide) (by decide)
  have hq := h.2.1 0 (by decide) (by decide)
  have hlast := hq.2.2.2.2.2.2.2.2.2.2 (by decide)
  exact ⟨h.1, h.2.2, hlast.1, hlast.2.1, hlast.2.2.1⟩

/-- C4 counterexample: a review decision with a valid status on a projectId
with no project record answers 500 with the generic internal-error message,
not the 404 not-found response the claim states. -/
theorem review_missing_counterexample :
    (projectReview emptyStore "p1" "approve" none none 0).resp
        = ⟨500, "Internal server error"⟩ ∧
    (projectReview emptyStore "p1" "approve" none none 0).resp.status ≠ 404 ∧
    (projectReview emptyStore "p1" "approve" none none 0).store = emptyStore := by
  refine ⟨rfl, by decide, rfl⟩

/-- C4 (amended): a review decision with a valid status on a projectId that
identifies no project record fails with the internal error (HTTP 500,
generic message) and leaves the store unchanged. -/
theorem review_missing_internal_error (s : Store) (pid st : String)
    (reason : Option String) (mark : Option Int) (now : Nat)
    (hst : validStatus st = true) (hmiss : ∀ p ∈ s.projects, p.id ≠ pid) :
    projectReview s pid st reason mark now = ⟨⟨500, "Internal server error"⟩, s⟩ := by
  have hex : projectExists s pid = false := by
    simp only [projectExists, List.any_eq_false, beq_iff_eq]
    exact hmiss
  simp [projectReview, hst, hex]

/-- Witness for the amended C4 at a concrete store with no projects. -/
theorem review_missing_internal_error_witness :
    projectReview emptyStore "p9" "reject" none none 7
        = ⟨⟨500, "Internal server error"⟩, emptyStore⟩ :=
  review_missing_internal_error emptyStore "p9" "reject" none none 7 (by decide)
    (by intro p hp; simp [emptyStore] at hp)

/-- C5: with a valid role and nonempty credentials, a login that fails
because no account with the email exists in the role's partition and a login
that fails because the password comparison fails return identical responses:
status 400 with the uniform invalid-credentials message. -/
theorem login_uniform_error (bcompare : String → String → Bool)
    (s1 s2 : Store) (e1 p1 e2 p2 role : String) (a : Account)
    (hrole : validRole role = true)
    (he1 : e1 ≠ "") (hp1 : p1 ≠ "") (he2 : e2 ≠ "") (hp2 : p2 ≠ "")
    (h1 : findByEmail (roleAccounts s1 role) e1 = none)
    (h2 : findByEmail (roleAccounts s2 role) e2 = some a)
    (h2b : bcompare p2 a.password = false) :
    login bcompare s1 e1 p1 role = login bcompare s2 e2 p2 role ∧
    login bcompare s1 e1 p1 role = ⟨400, "Invalid credentials"⟩ := by
  have hr0 : role ≠ "" := by
    rcases (validRole_iff role).mp hrole with h | h <;> subst h <;> decide
  have ha : login bcompare s1 e1 p1 role = ⟨400, "Invalid credentials"⟩ := by
    simp [login, he1, hp1, hr0, hrole, h1]
  have hb : login bcompare s2 e2 p2 role = ⟨400, "Invalid credentials"⟩ := by
    simp [login, he2, hp2, hr0, hrole, h2, h2b]
  exact ⟨ha.trans hb.symm, ha⟩

/-- Witness for C5: unknown email against the empty store versus wrong
password against a store holding the account. -/
theorem login_uniform_error_witness :
    login (fun _ _ => false) emptyStore "bob@u.edu" "pw" "student"
        = login (fun _ _ => false) storeOneStudent "alice@u.edu" "pw" "student" ∧
    login (fun _ _ => false) emptyStore "bob@u.edu" "pw" "student"
        = ⟨400, "Invalid credentials"⟩ :=
  login_uniform_error (fun _ _ => false) emptyStore storeOneStudent
    "bob@u.edu" "pw" "alice@u.edu" "pw" "student" aliceAccount (by decide)
    (by decide) (by decide) (by decide) (by decide) (by rfl) (by rfl) (by rfl)

/-- C6: the pending listing returns exactly the projects whose status is
"pending", and after a successful review decision on a project no record with
that project's id remains in the pending listing. -/
theorem pending_listing_exact (s : Store) :
    (∀ l, getPendingProjects s = ApiResult.ok l →
        ∀ p : Project, p ∈ l ↔ p ∈ s.projects ∧ p.status = "pending") ∧
    (∀ pid st reason mark now, validStatus st = true → projectExists s pid = true →
        ∀ l, getPendingProjects (projectReview s pid st reason mark now).store
            = ApiResult.ok l → ∀ q ∈ l, q.id ≠ pid) := by
  constructor
  · intro l hl p
    injection hl with hl
    subst hl
    simp [List.mem_filter]
  · intro pid st reason mark now hst hex l hl q hq
    rw [projectReview_success s pid st reason mark now hst hex] at hl
    injection hl with hl
    subst hl
    rcases List.mem_filter.mp hq with ⟨hmem, hstat⟩
    rcases List.mem_map.mp hmem with ⟨p, hpmem, hfp⟩
    by_cases hid : p.id = pid
    · rw [if_pos (by simp [hid])] at hfp
      exfalso
      have hqs : q.status = st := by rw [← hfp]; rfl
      have hqp : q.status = "pending" := by simpa using hstat
      rw [hqs] at hqp
      rcases (validStatus_iff st).mp hst with h' | h' <;> rw [h'] at hqp <;>
        exact absurd hqp (by decide)
    · rw [if_neg (by simp [hid])] at hfp
      subst hfp
      exact hid

/-- Witness for C6: the concrete pending project is listed, and after its
approval no project with its id is pending. -/
theorem pending_listing_exact_witness :
    demoProject ∈ storeOneProject.projects.filter (fun p => p.status == "pending") ∧
    ∀ q ∈ (projectReview storeOneProject "p1" "approve" none none 3).store.projects.filter
        (fun p => p.status == "pending"), q.id ≠ "p1" := by
  have h := pending_listing_exact storeOneProject
  constructor
  · exact (h.1 _ rfl demoProject).mpr ⟨by decide, rfl⟩
  · intro q hq
    exact h.2 "p1" "approve" none none 3 (by decide) (by decide) _ rfl q hq

/-- C7: on an existing project, a second valid review decision leaves the
store exactly as the second decision alone would, and the second invocation
succeeds (status 200): the review action overwrites rather than being blocked
by any already-decided check. -/
theorem review_overwrite_last_wins (s : Store) (pid st1 st2 : String)
    (r1 r2 : Option String) (m1 m2 : Option Int) (t1 t2 : Nat)
    (h1 : validStatus st1 = true) (h2 : validStatus st2 = true)
    (hex : projectExists s pid = true) :
    (projectReview (projectReview s pid st1 r1 m1 t1).store pid st2 r2 m2 t2).store
      = (projectReview s pid st2 r2 m2 t2).store ∧
    (projectReview (projectReview s pid st1 r1 m1 t1).store pid st2 r2 m2 t2).resp.status
      = 200 := by
  have hex1 : projectExists (projectReview s pid st1 r1 m1 t1).store pid = true := by
    rw [projectExists_review_store]
    exact hex
  constructor
  · rw [projectReview_success _ pid st2 r2 m2 t2 h2 hex1,
        projectReview_success s pid st1 r1 m1 t1 h1 hex,
        projectReview_success s pid st2 r2 m2 t2 h2 hex]
    dsimp only
    congr 1
    rw [List.map_map]
    apply List.map_congr_left
    intro p _
    simp only [Function.comp_apply]
    by_cases hp : p.id = pid <;> simp [hp, applyDecision]
  · rw [projectReview_success _ pid st2 r2 m2 t2 h2 hex1]

/-- Witness for C7: approve then reject on the concrete one-project store
equals rejecting alone, and the second call answers 200. -/
theorem review_overwrite_last_wins_witness :
    (projectReview (projectReview storeOneProject "p1" "approve" none (some 40) 1).store
        "p1" "reject" (some "late") (some 20) 2).store
      = (projectReview storeOneProject "p1" "reject" (some "late") (some 20) 2).store ∧
    (projectReview (projectReview storeOneProject "p1" "approve" none (some 40) 1).store
        "p1" "reject" (some "late") (some 20) 2).resp.status = 200 :=
  review_overwrite_last_wins storeOneProject "p1" "approve" "reject" none (some "late")
    (some 40) (some 20) 1 2 (by decide) (by decide) (by decide)

/-- C8: fetching a single project by an id matching no record yields the 404
not-found error; the collection queries (all, pending, by student) return an
empty list rather than an error when nothing matches, and among the retrieval
operations only the single-project lookup ever returns 404. -/
theorem retrieval_error_discipline (s : Store) :
    (∀ pid, pid ≠ "" → (∀ p ∈ s.projects, p.id ≠ pid) →
        getProject s pid = ApiResult.err ⟨404, "Project not found"⟩) ∧
    getProjects s = ApiResult.ok s.projects ∧
    ((∀ p ∈ s.projects, p.status ≠ "pending") →
        getPendingProjects s = ApiResult.ok []) ∧
    (∀ sid, sid ≠ "" → (∀ p ∈ s.projects, p.studentId ≠ sid) →
        getProjectsByStudent s sid = ApiResult.ok []) ∧
    (∀ r, getProjects s ≠ ApiResult.err r) ∧
    (∀ r, getPendingProjects s ≠ ApiResult.err r) ∧
    (∀ sid r, getProjectsByStudent s sid = ApiResult.err r → r.status = 400) := by
  refine ⟨?_, rfl, ?_, ?_, ?_, ?_, ?_⟩
  · intro pid hpid hmiss
    have hnone : s.projects.find? (fun p => p.id == pid) = none := by
      rw [List.find?_eq_none]
      intro p hp
      simpa using hmiss p hp
    simp [getProject, hpid, hnone]
  · intro hnp
    have hnil : s.projects.filter (fun p => p.status == "pending") = [] := by
      rw [List.filter_eq_nil_iff]
      intro p hp
      simpa using hnp p hp
    simp [getPendingProjects, hnil]
  · intro sid hsid hnm
    have hnil : s.projects.filter (fun p => p.studentId == sid) = [] := by
      rw [List.filter_eq_nil_iff]
      intro p hp
      simpa using hnm p hp
    simp [getProjectsByStudent, hsid, hnil]
  · intro r h
    simp [getProjects] at h
  · intro r h
    simp [getPendingProjects] at h
  · intro sid r h
    by_cases hsid : sid = ""
    · subst hsid
      have heq : getProjectsByStudent s "" = ApiResult.err ⟨400, "Missing studentId"⟩ := rfl
      rw [heq] at h
      injection h with h2
      rw [← h2]
    · simp [getProjectsByStudent, hsid] at h

/-- Witness for C8 at the empty store. -/
theorem retrieval_error_discipline_witness :
    getProject emptyStore "p1" = ApiResult.err ⟨404, "Project not found"⟩ ∧
    getPendingProjects emptyStore = ApiResult.ok [] ∧
    getProjectsByStudent emptyStore "s1" = ApiResult.ok [] := by
  have h := retrieval_error_discipline emptyStore
  exact ⟨h.1 "p1" (by decide) (by intro p hp; simp [emptyStore] at hp),
         h.2.2.1 (by intro p hp; simp [emptyStore] at hp),
         h.2.2.2.1 "s1" (by decide) (by intro p hp; simp [emptyStore] at hp)⟩

/-- C9: after a first successful registration of an email under a role, a
second registration of the same email under the same role answers the
conflict error and leaves the store unchanged, while the other role's
partition is untouched and a registration of the same email there is not
rejected by the duplicate-email check. -/
theorem register_conflict_partition (bhash : String → String) (s : Store)
    (name1 : Option String) (email pw1 role nid1 : String) (w1 : Nat)
    (he : email ≠ "") (hp1 : pw1 ≠ "") (hrole : validRole role = true)
    (hfree : emailExists (roleAccounts s role) email = false) :
    (register bhash s name1 email pw1 role nid1 w1).resp.status = 201 ∧
    (∀ name2 pw2 nid2 w2, pw2 ≠ "" →
      register bhash (register bhash s name1 email pw1 role nid1 w1).store
          name2 email pw2 role nid2 w2
        = ⟨⟨400, "Email already exists"⟩,
           (register bhash s name1 email pw1 role nid1 w1).store⟩) ∧
    (∀ role2, validRole role2 = true → role2 ≠ role →
      roleAccounts (register bhash s name1 email pw1 role nid1 w1).store role2
        = roleAccounts s role2 ∧
      (∀ name3 pw3 nid3 w3, pw3 ≠ "" →
        emailExists (roleAccounts s role2) email = false →
        (register bhash (register bhash s name1 email pw1 role nid1 w1).store
            name3 email pw3 role2 nid3 w3).resp.status = 201)) := by
  have h1 := register_success bhash s name1 email pw1 role nid1 w1 he hp1 hrole hfree
  refine ⟨by rw [h1], ?_, ?_⟩
  · intro name2 pw2 nid2 w2 hp2
    rw [h1]
    rcases (validRole_iff role).mp hrole with hr | hr
    · subst hr
      have hex : emailExists
          (s.students ++ [⟨nid1, name1.getD "", email, "student", bhash pw1, w1⟩])
          email = true := by
        simp [emailExists]
      simp [register, validRole, he, hp2, roleAccounts, hex]
    · subst hr
      have hex : emailExists
          (s.faculty ++ [⟨nid1, name1.getD "", email, "faculty", bhash pw1, w1⟩])
          email = true := by
        simp [emailExists]
      simp [register, validRole, he, hp2, roleAccounts, hex]
  · intro role2 hval2 hne2
    rw [h1]
    rcases (validRole_iff role).mp hrole with hr | hr <;>
      rcases (validRole_iff role2).mp hval2 with hr2 | hr2
    · exact absurd (hr2.trans hr.symm) hne2
    · subst hr; subst hr2
      refine ⟨by simp [roleAccounts], ?_⟩
      intro name3 pw3 nid3 w3 hp3 hfree2
      have hf : emailExists s.faculty email = false := by
        simpa [roleAccounts] using hfree2
      simp [register, validRole, he, hp3, roleAccounts, hf]
    · subst hr; subst hr2
      refine ⟨by simp [roleAccounts], ?_⟩
      intro name3 pw3 nid3 w3 hp3 hfree2
      have hf : emailExists s.students email = false := by
        simpa [roleAccounts] using hfree2
      simp [register, validRole, he, hp3, roleAccounts, hf]
    · exact absurd (hr2.trans hr.symm) hne2

/-- Witness for C9: registering the same email twice as a student on the
empty store conflicts on the second attempt; registering it as faculty
afterwards succeeds. -/
theorem register_conflict_partition_witness :
    (register (fun x => x) emptyStore (some "Ann") "a@u.edu" "pw" "student" "i1" 0).resp.status
      = 201 ∧
    register (fun x => x)
        (register (fun x => x) emptyStore (some "Ann") "a@u.edu" "pw" "student" "i1" 0).store
        (some "Ann") "a@u.edu" "pw" "student" "i2" 1
      = ⟨⟨400, "Email already exists"⟩,
         (register (fun x => x) emptyStore (some "Ann") "a@u.edu" "pw" "student" "i1" 0).store⟩ ∧
    (register (fun x => x)
        (register (fun x => x) emptyStore (some "Ann") "a@u.edu" "pw" "student" "i1" 0).store
        (some "Ann") "a@u.edu" "pw" "faculty" "i3" 2).resp.status = 201 := by
  have h := register_conflict_partition (fun x => x) emptyStore (some "Ann")
    "a@u.edu" "pw" "student" "i1" 0 (by decide) (by decide) (by decide) (by decide)
  exact ⟨h.1, h.2.1 (some "Ann") "pw" "i2" 1 (by decide),
    (h.2.2 "faculty" (by decide) (by decide)).2 (some "Ann") "pw" "i3" 2
      (by decide) (by decide)⟩

/-- C10: after a successful review decision, the reviewed records persist
mark null when the supplied mark is absent or the falsy number 0 (so a zero
mark cannot be recorded), persist a non-falsy mark as given, and persist the
empty string as reviewReason when the supplied reason is absent or falsy. -/
theorem review_mark_falsy (s : Store) (pid st : String) (reason : Option String)
    (mark : Option Int) (now : Nat)
    (hst : validStatus st = true) (hex : projectExists s pid = true) :
    (∃ q ∈ (projectReview s pid st reason mark now).store.projects, q.id = pid) ∧
    (∀ q ∈ (projectReview s pid st reason mark now).store.projects, q.id = pid →
      ((mark = none ∨ mark = some 0) → q.mark = none) ∧
      (∀ v : Int, mark = some v → v ≠ 0 → q.mark = some v) ∧
      ((reason = none ∨ reason = some "") → q.reviewReason = some "") ∧
      (∀ r : String, reason = some r → r ≠ "" → q.reviewReason = some r)) := by
  rw [projectReview_success s pid st reason mark now hst hex]
  dsimp only
  constructor
  · rcases List.any_eq_true.mp hex with ⟨p, hpmem, hpid⟩
    refine ⟨applyDecision p st reason mark now, ?_, ?_⟩
    · exact List.mem_map.mpr ⟨p, hpmem, by rw [if_pos hpid]⟩
    · rw [applyDecision_id]
      exact eq_of_beq hpid
  · intro q hqmem hqid
    rcases List.mem_map.mp hqmem with ⟨p, hpmem, hfp⟩
    by_cases hid : p.id = pid
    · rw [if_pos (by simp [hid])] at hfp
      subst hfp
      refine ⟨?_, ?_, ?_, ?_⟩
      · rintro (rfl | rfl) <;> simp [applyDecision, jsMarkOrNull]
      · rintro v rfl hv
        simp [applyDecision, jsMarkOrNull, hv]
      · rintro (rfl | rfl) <;> simp [applyDecision, jsReasonOrEmpty]
      · rintro r rfl hr
        simp [applyDecision, jsReasonOrEmpty, hr]
    · rw [if_neg (by simp [hid])] at hfp
      subst hfp
      exact absurd hqid hid

/-- Witness for C10: approving the concrete pending project with mark 0 and
no reason persists mark null and an empty reviewReason. -/
theorem review_mark_falsy_witness :
    ((projectReview storeOneProject "p1" "approve" none (some 0) 5).store.projects.get
        ⟨0, by decide⟩).mark = none ∧
    ((projectReview storeOneProject "p1" "approve" none (some 0) 5).store.projects.get
        ⟨0, by decide⟩).reviewReason = some "" := by
  have h := review_mark_falsy storeOneProject "p1" "approve" none (some 0) 5
    (by decide) (by decide)
  have hq := h.2 ((projectReview storeOneProject "p1" "approve" none (some 0) 5).store.projects.get
    ⟨0, by decide⟩) (by decide) (by decide)
  exact ⟨hq.1 (Or.inr rfl), hq.2.2.1 (Or.inl rfl)⟩

end ProjectApp
